import Mathlib

/-!
Shallow embedding of the antigravity-claude-proxy onboarding module
(src/account-manager/onboarding.js): the onboarding polling coordinator
(getDefaultTierId, onboardUser) and the session-identity store
(deriveSessionId, clearSessionStore, generateBinaryStyleId).

Modelling conventions:
- JavaScript optional/nullable strings become Option String; JS string
  truthiness (undefined, null and the empty string are falsy) is truthyOpt.
- The HTTP transport (global fetch plus response.text/response.json) is an
  oracle indexed by endpoint index and attempt index; an oracle value
  describes what that transport call does: throw, return a non-ok status,
  or return a parsed JSON body.  The try-block of each attempt is embedded
  as an Except-valued computation (attemptOnce); the catch clause of the
  source is the match on Except.error in the polling loop.
- Observable effects (transport calls, sleeps) are recorded in a trace of
  events so that temporal claims about attempts and delays can be stated.
- crypto.randomUUID and Date.now are an environment of streams (Env);
  the session state carries a counter giving the position in those streams.
-/

namespace AntigravityProxy

/-- JavaScript truthiness of an optional string: undefined/null and the
empty string are falsy, every other string is truthy. -/
def truthyOpt : Option String → Bool
  | none => false
  | some s => !(s == "")

/-! ### Tier descriptors and getDefaultTierId -/

/-- One element of the allowedTiers list: an object with optional id and
an isDefault flag (absent flag modelled as false). -/
structure TierDescriptor where
  id : Option String
  isDefault : Bool
deriving Repr, DecidableEq

/-- The for-loop of getDefaultTierId: scan the list; on the first element
that is non-null and has a truthy isDefault, return (as some) that
element's id (which may itself be undefined).  Falling through the whole
loop is none. -/
def findDefaultId : List (Option TierDescriptor) → Option (Option String)
  | [] => none
  | none :: rest => findDefaultId rest
  | some t :: rest => if t.isDefault then some t.id else findDefaultId rest

/-- getDefaultTierId from the source: undefined list or empty list gives
undefined; otherwise the first default-flagged tier's id, else the first
element's id (via optional chaining, so a null first element gives
undefined). -/
def getDefaultTierId (allowedTiers : Option (List (Option TierDescriptor))) :
    Option String :=
  match allowedTiers with
  | none => none
  | some l =>
    if l.length = 0 then none
    else
      match findDefaultId l with
      | some r => r
      | none =>
        match l with
        | [] => none
        | ot :: _ => ot.bind TierDescriptor.id

/-! ### Request body construction (onboardUser lines 47-65) -/

/-- The metadata object of the onboarding request body. -/
structure Metadata where
  ideType : String
  platform : String
  pluginType : String
  duetProject : Option String
deriving Repr, DecidableEq

/-- The onboarding request body: tierId, metadata and the conditionally
present cloudaicompanionProject field. -/
structure RequestBody where
  tierId : String
  metadata : Metadata
  cloudaicompanionProject : Option String
deriving Repr, DecidableEq

/-- Construction of the request body by onboardUser: duetProject is set
when projectId is truthy, and cloudaicompanionProject is set when the
tier is not FREE and projectId is truthy. -/
def buildRequestBody (tierId : String) (projectId : Option String) :
    RequestBody :=
  { tierId := tierId
    metadata :=
      { ideType := "IDE_UNSPECIFIED"
        platform := "PLATFORM_UNSPECIFIED"
        pluginType := "GEMINI"
        duetProject := if truthyOpt projectId then projectId else none }
    cloudaicompanionProject :=
      if (!(tierId == "FREE")) && truthyOpt projectId then projectId
      else none }

/-! ### The polling loop of onboardUser -/

/-- The parsed JSON body of one poll: done, and the nested optional
response.cloudaicompanionProject.id collapsed through optional chaining. -/
structure OnboardData where
  done : Bool
  managedProjectId : Option String
deriving Repr, DecidableEq

/-- What one transport call does: throw an exception somewhere inside the
try block (fetch network error, or response.text / response.json
throwing), return a non-ok HTTP status, or return ok with a parsed body. -/
inductive FetchOutcome where
  | throwErr (msg : String)
  | httpError
  | success (data : OnboardData)
deriving Repr, DecidableEq

/-- The try-block body of one attempt, with its exception channel: a
throwing transport call is Except.error; a non-ok status is ok none
(break to the next endpoint); an ok status is ok (some data). -/
def attemptOnce (oracle : Nat → Nat → FetchOutcome) (eIdx attempt : Nat) :
    Except String (Option OnboardData) :=
  match oracle eIdx attempt with
  | FetchOutcome.throwErr msg => Except.error msg
  | FetchOutcome.httpError => Except.ok none
  | FetchOutcome.success data => Except.ok (some data)

/-- The completion test of lines 90-96: done with a truthy managed project
id returns that id; otherwise done with a truthy caller projectId returns
the projectId; otherwise no completion. -/
def completionCheck (data : OnboardData) (projectId : Option String) :
    Option String :=
  if data.done && truthyOpt data.managedProjectId then data.managedProjectId
  else if data.done && truthyOpt projectId then projectId
  else none

/-- Observable events of a run: a transport call at (endpoint, attempt),
or a sleep of delayMs milliseconds. -/
inductive Event where
  | call (endpointIdx attempt : Nat)
  | sleep (ms : Nat)
deriving Repr, DecidableEq

/-- The attempt loop of one endpoint, from a given attempt index.  The
fuel argument only bounds the recursion; all tests are the source's own
tests on attempt and maxAttempts.  Entered through runAttempts below with
fuel = maxAttempts - attempt, which every recursive call preserves.
Returns the trace of events and, as some v, an early return terminating
the whole operation; none means the endpoint is abandoned or exhausted. -/
def runAttemptsAux (oracle : Nat → Nat → FetchOutcome)
    (projectId : Option String) (maxAttempts delayMs eIdx : Nat) :
    Nat → Nat → List Event × Option String
  | 0, _ => ([], none)
  | fuel + 1, attempt =>
    if attempt < maxAttempts then
      match attemptOnce oracle eIdx attempt with
      | Except.error _ => ([Event.call eIdx attempt], none)
      | Except.ok none => ([Event.call eIdx attempt], none)
      | Except.ok (some data) =>
        match completionCheck data projectId with
        | some v => ([Event.call eIdx attempt], some v)
        | none =>
          if attempt < maxAttempts - 1 then
            let r := runAttemptsAux oracle projectId maxAttempts delayMs eIdx
              fuel (attempt + 1)
            (Event.call eIdx attempt :: Event.sleep delayMs :: r.1, r.2)
          else ([Event.call eIdx attempt], none)
    else ([], none)

/-- The attempt loop of one endpoint starting at a given attempt index. -/
def runAttempts (oracle : Nat → Nat → FetchOutcome)
    (projectId : Option String) (maxAttempts delayMs eIdx attempt : Nat) :
    List Event × Option String :=
  runAttemptsAux oracle projectId maxAttempts delayMs eIdx
    (maxAttempts - attempt) attempt

/-- The endpoint loop of onboardUser over a list of endpoint indices: run
the attempt loop of each endpoint from attempt 0; an early return (some v)
terminates the whole operation, otherwise advance to the next endpoint. -/
def runEndpoints (oracle : Nat → Nat → FetchOutcome)
    (projectId : Option String) (maxAttempts delayMs : Nat) :
    List Nat → List Event × Option String
  | [] => ([], none)
  | eIdx :: rest =>
    let r := runAttempts oracle projectId maxAttempts delayMs eIdx 0
    match r.2 with
    | some v => (r.1, some v)
    | none =>
      let r2 := runEndpoints oracle projectId maxAttempts delayMs rest
      (r.1 ++ r2.1, r2.2)

/-- onboardUser: build the request body once, then iterate the endpoint
candidate list (abstracted as indices 0..numEndpoints-1) with the attempt
loop.  Result: the built body, the event trace, and the returned managed
project id (some) or null (none).  The token is only used inside the
abstracted transport headers. -/
def onboardUser (oracle : Nat → Nat → FetchOutcome) (_token tierId : String)
    (projectId : Option String) (maxAttempts delayMs numEndpoints : Nat) :
    RequestBody × List Event × Option String :=
  (buildRequestBody tierId projectId,
   runEndpoints oracle projectId maxAttempts delayMs
     (List.range numEndpoints))

/-! ### Session identity store -/

/-- The external randomness and clock: the k-th crypto.randomUUID result
and the k-th Date.now result (milliseconds since epoch). -/
structure Env where
  uuid : Nat → String
  now : Nat → Nat

/-- generateBinaryStyleId: crypto.randomUUID() + Date.now().toString(),
at position k of the environment streams. -/
def generateBinaryStyleId (env : Env) (k : Nat) : String :=
  env.uuid k ++ Nat.repr (env.now k)

/-- The process state of the session module: the runtimeSessionStore map
(as an association list in insertion order, one entry per key since the
source only sets absent keys) and the position in the Env streams. -/
structure SessionState where
  runtimeSessionStore : List (String × String)
  ctr : Nat
deriving Repr, DecidableEq

/-- The state at process start: empty store. -/
def initialSessionState : SessionState := ⟨[], 0⟩

/-- Map lookup on the association list (Map.has / Map.get of the source). -/
def storeLookup : List (String × String) → String → Option String
  | [], _ => none
  | (k, v) :: rest, a => if k = a then some v else storeLookup rest a

/-- deriveSessionId: falsy accountEmail generates a fresh id without
touching the store; otherwise return the cached id if present, else
generate, store under the account, and return the new id. -/
def deriveSessionId (env : Env) (s : SessionState)
    (accountEmail : Option String) : String × SessionState :=
  if !truthyOpt accountEmail then
    (generateBinaryStyleId env s.ctr, ⟨s.runtimeSessionStore, s.ctr + 1⟩)
  else
    let a := accountEmail.getD ""
    match storeLookup s.runtimeSessionStore a with
    | some v => (v, s)
    | none =>
      let newSessionId := generateBinaryStyleId env s.ctr
      (newSessionId,
       ⟨s.runtimeSessionStore ++ [(a, newSessionId)], s.ctr + 1⟩)

/-- clearSessionStore: clears the map (the stream position is external to
the store and unaffected). -/
def clearSessionStore (s : SessionState) : SessionState := ⟨[], s.ctr⟩

/-- One operation against the session module. -/
inductive SessionOp where
  | derive (accountEmail : Option String)
  | clear
deriving Repr, DecidableEq

/-- Run a sequence of session operations from a state, collecting every
token returned to callers. -/
def runSessionOps (env : Env) (s : SessionState) :
    List SessionOp → SessionState × List String
  | [] => (s, [])
  | SessionOp.derive a :: rest =>
    let r := deriveSessionId env s a
    let r2 := runSessionOps env r.2 rest
    (r2.1, r.1 :: r2.2)
  | SessionOp.clear :: rest => runSessionOps env (clearSessionStore s) rest

/-! ### Canonical UUID shape -/

/-- Lowercase hexadecimal digit. -/
def isLowerHexDigit (c : Char) : Bool :=
  (('0' ≤ c) && (c ≤ '9')) || (('a' ≤ c) && (c ≤ 'f'))

/-- Character admissible at position i of a canonical 8-4-4-4-12 UUID
string: a hyphen at positions 8, 13, 18, 23, a lowercase hex digit
elsewhere. -/
def uuidCharOk (i : Nat) (c : Char) : Bool :=
  if i = 8 || i = 13 || i = 18 || i = 23 then c == '-' else isLowerHexDigit c

/-- Canonical textual form of a 128-bit identifier, as produced by
crypto.randomUUID: 36 characters, hyphens at positions 8, 13, 18, 23,
lowercase hex digits elsewhere. -/
def isCanonicalUUIDStr (s : String) : Bool :=
  (s.toList.length == 36) &&
    (s.toList.enum.all fun p => uuidCharOk p.1 p.2)

/-- The shape every generated session token must have: a canonical UUID
string immediately followed by a decimal millisecond timestamp, with no
separator. -/
def tokenShape (tok : String) : Prop :=
  ∃ u t, isCanonicalUUIDStr u = true ∧ tok = u ++ Nat.repr t

/-! ### Helper lemmas -/

/-- A truthy optional string is some non-empty string. -/
lemma truthyOpt_iff {p : Option String} :
    truthyOpt p = true ↔ ∃ s, p = some s ∧ s ≠ "" := by
  cases p with
  | none => simp [truthyOpt]
  | some s => simp [truthyOpt]

/-- A truthy optional string is not none. -/
lemma truthyOpt_ne_none {p : Option String} (h : truthyOpt p = true) :
    p ≠ none := by
  obtain ⟨s, hs, -⟩ := truthyOpt_iff.mp h
  simp [hs]

/-- The loop of getDefaultTierId agrees with find? on the scanned
predicate: a found element gives its id, no found element falls through. -/
lemma findDefaultId_spec (l : List (Option TierDescriptor)) :
    (∀ t, l.find? (fun ot => ot.elim false TierDescriptor.isDefault) =
        some t → findDefaultId l = some (t.bind TierDescriptor.id))
    ∧ (l.find? (fun ot => ot.elim false TierDescriptor.isDefault) = none →
        findDefaultId l = none) := by
  induction l with
  | nil => simp [findDefaultId]
  | cons hd tl ih =>
    cases hd with
    | none =>
      simpa [findDefaultId, List.find?, Option.elim] using ih
    | some td =>
      by_cases hdef : td.isDefault
      · constructor
        · intro t ht
          simp [List.find?, hdef] at ht
          simp [findDefaultId, hdef, ← ht]
        · intro ht
          simp [List.find?, hdef] at ht
      · simpa [findDefaultId, List.find?, hdef] using ih

/-- Lookup distributes over appending to the store. -/
lemma storeLookup_append (xs ys : List (String × String)) (a : String) :
    storeLookup (xs ++ ys) a =
      match storeLookup xs a with
      | some v => some v
      | none => storeLookup ys a := by
  induction xs with
  | nil => simp [storeLookup]
  | cons p rest ih =>
    by_cases h : p.1 = a
    · simp [storeLookup, h]
    · simp [storeLookup, h, ih]

/-- One unfolding of the attempt loop at an in-range attempt index. -/
lemma runAttempts_unfold (oracle : Nat → Nat → FetchOutcome)
    (p : Option String) (maxA d e a : Nat) (h : a < maxA) :
    runAttempts oracle p maxA d e a =
      match attemptOnce oracle e a with
      | Except.error _ => ([Event.call e a], none)
      | Except.ok none => ([Event.call e a], none)
      | Except.ok (some data) =>
        match completionCheck data p with
        | some v => ([Event.call e a], some v)
        | none =>
          if a < maxA - 1 then
            let r := runAttempts oracle p maxA d e (a + 1)
            (Event.call e a :: Event.sleep d :: r.1, r.2)
          else ([Event.call e a], none) := by
  have h1 : maxA - a = (maxA - (a + 1)) + 1 := by omega
  rw [runAttempts, h1, runAttemptsAux, if_pos h]
  rfl

/-- The attempt loop is past the end when the attempt index reaches
maxAttempts. -/
lemma runAttempts_past (oracle : Nat → Nat → FetchOutcome)
    (p : Option String) (maxA d e a : Nat) (h : maxA ≤ a) :
    runAttempts oracle p maxA d e a = ([], none) := by
  have h1 : maxA - a = 0 := by omega
  rw [runAttempts, h1, runAttemptsAux]

/-- A poll whose completion test fires terminates the endpoint loop right
there, with only that one transport call in the trace. -/
lemma runAttempts_completes (oracle : Nat → Nat → FetchOutcome)
    (p : Option String) (maxA d e a : Nat) (data : OnboardData)
    (v : String) (h : a < maxA)
    (hor : oracle e a = FetchOutcome.success data)
    (hcc : completionCheck data p = some v) :
    runAttempts oracle p maxA d e a = ([Event.call e a], some v) := by
  rw [runAttempts_unfold oracle p maxA d e a h]
  simp [attemptOnce, hor, hcc]

/-- The endpoint loop stops at an endpoint whose attempt loop returns a
value: nothing after it runs. -/
lemma runEndpoints_cons_some (oracle : Nat → Nat → FetchOutcome)
    (p : Option String) (maxA d e : Nat) (rest : List Nat)
    (tr : List Event) (v : String)
    (h : runAttempts oracle p maxA d e 0 = (tr, some v)) :
    runEndpoints oracle p maxA d (e :: rest) = (tr, some v) := by
  simp [runEndpoints, h]

/-- The endpoint loop advances past an endpoint whose attempt loop ends
without a value. -/
lemma runEndpoints_cons_none (oracle : Nat → Nat → FetchOutcome)
    (p : Option String) (maxA d e : Nat) (rest : List Nat)
    (h : (runAttempts oracle p maxA d e 0).2 = none) :
    runEndpoints oracle p maxA d (e :: rest) =
      ((runAttempts oracle p maxA d e 0).1 ++
        (runEndpoints oracle p maxA d rest).1,
       (runEndpoints oracle p maxA d rest).2) := by
  simp only [runEndpoints, h]

/-! ### Claim theorems -/

/-- C7: for every non-empty tier list, getDefaultTierId returns the id of
the first descriptor flagged default when one exists, else the id of the
first element of the list; for an absent or empty list it returns no
value (none), not an error. -/
theorem getDefaultTierId_selection :
    (∀ (l : List (Option TierDescriptor)) (t : Option TierDescriptor),
        l.find? (fun ot => ot.elim false TierDescriptor.isDefault) =
          some t →
        getDefaultTierId (some l) = t.bind TierDescriptor.id)
    ∧ (∀ l : List (Option TierDescriptor), l ≠ [] →
        l.find? (fun ot => ot.elim false TierDescriptor.isDefault) = none →
        getDefaultTierId (some l) =
          l.head?.bind fun ot => ot.bind TierDescriptor.id)
    ∧ getDefaultTierId none = none
    ∧ getDefaultTierId (some []) = none := by
  refine ⟨?_, ?_, rfl, rfl⟩
  · intro l t ht
    have hne : l ≠ [] := by
      intro h
      subst h
      simp [List.find?] at ht
    have hfd := (findDefaultId_spec l).1 t ht
    cases l with
    | nil => exact absurd rfl hne
    | cons hd tl => simp [getDefaultTierId, hfd]
  · intro l hne ht
    have hfd := (findDefaultId_spec l).2 ht
    cases l with
    | nil => exact absurd rfl hne
    | cons hd tl => simp [getDefaultTierId, hfd]

/-- C7 witness: concrete default-flagged list where the hypotheses of the
selection theorem are evaluated and discharged. -/
theorem getDefaultTierId_selection_witness :
    (([some ⟨some "a", false⟩, some ⟨some "b", true⟩] :
        List (Option TierDescriptor)).find?
      (fun ot => ot.elim false TierDescriptor.isDefault) =
        some (some ⟨some "b", true⟩))
    ∧ getDefaultTierId
        (some [some ⟨some "a", false⟩, some ⟨some "b", true⟩]) =
        some "b" :=
  ⟨by decide,
   (getDefaultTierId_selection.1 _ (some ⟨some "b", true⟩)
     (by decide)).trans rfl⟩

/-- C6: the built request body contains cloudaicompanionProject exactly
when the tier is non-FREE and a (truthy) project identifier was supplied,
in which case it equals that identifier; for tier FREE the field is never
present. -/
theorem buildRequestBody_cloudaicompanion (tierId : String)
    (projectId : Option String) :
    ((buildRequestBody tierId projectId).cloudaicompanionProject ≠ none ↔
      (tierId ≠ "FREE" ∧ truthyOpt projectId = true))
    ∧ (tierId ≠ "FREE" → truthyOpt projectId = true →
      (buildRequestBody tierId projectId).cloudaicompanionProject =
        projectId)
    ∧ (buildRequestBody "FREE" projectId).cloudaicompanionProject =
        none := by
  refine ⟨?_, ?_, by simp [buildRequestBody]⟩
  · by_cases h1 : tierId = "FREE"
    · simp [buildRequestBody, h1]
    · by_cases h2 : truthyOpt projectId
      · simpa [buildRequestBody, h1, h2] using truthyOpt_ne_none h2
      · simp [buildRequestBody, h1, h2]
  · intro h1 h2
    simp [buildRequestBody, h1, h2]

/-- C6 witness: a concrete non-FREE tier with a supplied identifier,
hypotheses evaluated and discharged at that input. -/
theorem buildRequestBody_cloudaicompanion_witness :
    ("PRO" ≠ "FREE" ∧ truthyOpt (some "proj-1") = true)
    ∧ (buildRequestBody "PRO" (some "proj-1")).cloudaicompanionProject =
        some "proj-1" :=
  ⟨⟨by decide, by decide⟩,
   (buildRequestBody_cloudaicompanion "PRO" (some "proj-1")).2.1
     (by decide) (by decide)⟩

/-- C1: a successful poll with done and a truthy managed project id makes
the attempt loop return exactly that id with no further transport call;
with done but no managed id, a truthy caller projectId is returned
instead; the managed branch is tested first, so it always wins; and an
attempt loop that returns a value terminates the endpoint loop, skipping
every remaining endpoint. -/
theorem onboardUser_done_precedence (oracle : Nat → Nat → FetchOutcome)
    (projectId : Option String) (maxAttempts delayMs eIdx attempt : Nat)
    (rest : List Nat) (data : OnboardData)
    (hlt : attempt < maxAttempts)
    (hpoll : oracle eIdx attempt = FetchOutcome.success data)
    (hdone : data.done = true) :
    (truthyOpt data.managedProjectId = true →
      runAttempts oracle projectId maxAttempts delayMs eIdx attempt =
        ([Event.call eIdx attempt], data.managedProjectId))
    ∧ (truthyOpt data.managedProjectId = false →
      truthyOpt projectId = true →
      runAttempts oracle projectId maxAttempts delayMs eIdx attempt =
        ([Event.call eIdx attempt], projectId))
    ∧ (∀ tr v,
      runAttempts oracle projectId maxAttempts delayMs eIdx 0 =
        (tr, some v) →
      runEndpoints oracle projectId maxAttempts delayMs (eIdx :: rest) =
        (tr, some v)) := by
  refine ⟨?_, ?_, ?_⟩
  · intro hm
    obtain ⟨s, hs, -⟩ := truthyOpt_iff.mp hm
    have hm2 : truthyOpt (some s) = true := by rw [← hs]; exact hm
    have hcc : completionCheck data projectId = some s := by
      simp [completionCheck, hdone, hs, hm2]
    rw [runAttempts_completes oracle projectId maxAttempts delayMs eIdx
      attempt data s hlt hpoll hcc, hs]
  · intro hm hp
    obtain ⟨s, hs, -⟩ := truthyOpt_iff.mp hp
    have hp2 : truthyOpt (some s) = true := by rw [← hs]; exact hp
    have hcc : completionCheck data projectId = some s := by
      simp [completionCheck, hdone, hm, hs, hp2]
    rw [runAttempts_completes oracle projectId maxAttempts delayMs eIdx
      attempt data s hlt hpoll hcc, hs]
  · intro tr v h
    exact runEndpoints_cons_some oracle projectId maxAttempts delayMs
      eIdx rest tr v h

/-- A transport oracle whose every call reports completion with managed
project id X. -/
def oracleManagedX : Nat → Nat → FetchOutcome := fun _ _ =>
  FetchOutcome.success ⟨true, some "X"⟩

/-- C1 witness: the managed id X is returned by the first attempt, with
every hypothesis evaluated at the concrete input. -/
theorem onboardUser_done_precedence_witness :
    ((0 : Nat) < 10
      ∧ oracleManagedX 0 0 = FetchOutcome.success ⟨true, some "X"⟩
      ∧ (⟨true, some "X"⟩ : OnboardData).done = true
      ∧ truthyOpt (some "X") = true)
    ∧ runAttempts oracleManagedX none 10 5000 0 0 =
        ([Event.call 0 0], some "X") :=
  ⟨⟨by decide, rfl, rfl, by decide⟩,
   (onboardUser_done_precedence oracleManagedX none 10 5000 0 0 []
     ⟨true, some "X"⟩ (by decide) rfl rfl).1 (by decide)⟩

/-- C2: a transport call that throws or returns a non-success status ends
that endpoint's attempt loop at once (the trace holds only the failing
call, no attempt N+1..maxAttempts), yields none rather than an error, and
the endpoint loop then advances to the remaining endpoints. -/
theorem onboardUser_transport_failure_advances
    (oracle : Nat → Nat → FetchOutcome) (projectId : Option String)
    (maxAttempts delayMs eIdx attempt : Nat) (rest : List Nat)
    (hlt : attempt < maxAttempts)
    (hfail : (∃ msg, oracle eIdx attempt = FetchOutcome.throwErr msg) ∨
      oracle eIdx attempt = FetchOutcome.httpError) :
    runAttempts oracle projectId maxAttempts delayMs eIdx attempt =
      ([Event.call eIdx attempt], none)
    ∧ (∀ tr,
      runAttempts oracle projectId maxAttempts delayMs eIdx 0 =
        (tr, none) →
      runEndpoints oracle projectId maxAttempts delayMs (eIdx :: rest) =
        (tr ++ (runEndpoints oracle projectId maxAttempts delayMs rest).1,
         (runEndpoints oracle projectId maxAttempts delayMs rest).2)) := by
  constructor
  · rw [runAttempts_unfold oracle projectId maxAttempts delayMs eIdx
      attempt hlt]
    rcases hfail with ⟨msg, hmsg⟩ | hhttp
    · simp [attemptOnce, hmsg]
    · simp [attemptOnce, hhttp]
  · intro tr htr
    have h := runEndpoints_cons_none oracle projectId maxAttempts delayMs
      eIdx rest (by rw [htr])
    rw [htr] at h
    exact h

/-- A transport oracle whose every call throws a network error. -/
def oracleThrow : Nat → Nat → FetchOutcome := fun _ _ =>
  FetchOutcome.throwErr "network down"

/-- C2 witness: a throwing first attempt is the endpoint's only call,
with the hypotheses evaluated at the concrete input. -/
theorem onboardUser_transport_failure_advances_witness :
    ((0 : Nat) < 5
      ∧ (∃ msg, oracleThrow 0 0 = FetchOutcome.throwErr msg))
    ∧ runAttempts oracleThrow none 5 100 0 0 =
        ([Event.call 0 0], none) :=
  ⟨⟨by decide, ⟨"network down", rfl⟩⟩,
   (onboardUser_transport_failure_advances oracleThrow none 5 100 0 0 []
     (by decide) (Or.inl ⟨"network down", rfl⟩)).1⟩

/-- When no successful poll ever passes the completion test, the attempt
loop of an endpoint ends without a value, from any attempt index and with
any fuel. -/
lemma runAttemptsAux_no_completion (oracle : Nat → Nat → FetchOutcome)
    (p : Option String) (maxA d e : Nat)
    (hnc : ∀ a data, oracle e a = FetchOutcome.success data →
      completionCheck data p = none) :
    ∀ fuel a, (runAttemptsAux oracle p maxA d e fuel a).2 = none := by
  intro fuel
  induction fuel with
  | zero => intro a; simp [runAttemptsAux]
  | succ n ih =>
    intro a
    rw [runAttemptsAux]
    by_cases h : a < maxA
    · rw [if_pos h]
      cases hoa : oracle e a with
      | throwErr msg => simp [attemptOnce, hoa]
      | httpError => simp [attemptOnce, hoa]
      | success data =>
        have hcc := hnc a data hoa
        by_cases h2 : a < maxA - 1
        · simp [attemptOnce, hoa, hcc, h2, ih]
        · simp [attemptOnce, hoa, hcc, h2]
    · rw [if_neg h]

/-- When no successful poll ever passes the completion test, the whole
endpoint loop ends with null. -/
lemma runEndpoints_no_completion (oracle : Nat → Nat → FetchOutcome)
    (p : Option String) (maxA d : Nat)
    (hnc : ∀ e a data, oracle e a = FetchOutcome.success data →
      completionCheck data p = none) :
    ∀ l, (runEndpoints oracle p maxA d l).2 = none := by
  intro l
  induction l with
  | nil => simp [runEndpoints]
  | cons e rest ih =>
    have h0 : (runAttempts oracle p maxA d e 0).2 = none :=
      runAttemptsAux_no_completion oracle p maxA d e
        (fun a data => hnc e a data) _ _
    rw [runEndpoints_cons_none oracle p maxA d e rest h0]
    exact ih

/-- A throwing first attempt makes the endpoint's whole loop a single
call. -/
lemma runAttempts_throw_first (oracle : Nat → Nat → FetchOutcome)
    (p : Option String) (maxA d e : Nat) (h1 : 1 ≤ maxA) (msg : String)
    (hth : oracle e 0 = FetchOutcome.throwErr msg) :
    runAttempts oracle p maxA d e 0 = ([Event.call e 0], none) := by
  rw [runAttempts_unfold oracle p maxA d e 0 (by omega)]
  simp [attemptOnce, hth]

/-- Against an everywhere-throwing transport, the endpoint loop makes one
call per endpoint and returns null. -/
lemma runEndpoints_all_throw (oracle : Nat → Nat → FetchOutcome)
    (p : Option String) (maxA d : Nat) (h1 : 1 ≤ maxA)
    (hth : ∀ e a, ∃ msg, oracle e a = FetchOutcome.throwErr msg) :
    ∀ l, runEndpoints oracle p maxA d l =
      (l.map fun e => Event.call e 0, none) := by
  intro l
  induction l with
  | nil => simp [runEndpoints]
  | cons e rest ih =>
    obtain ⟨msg, hmsg⟩ := hth e 0
    have h0 := runAttempts_throw_first oracle p maxA d e h1 msg hmsg
    rw [runEndpoints_cons_none oracle p maxA d e rest (by rw [h0])]
    simp [h0, ih]

/-- C3: onboardUser never surfaces a transport exception: every throw of
the try-block (the Except.error channel of attemptOnce) is consumed by
the catch, so that even an everywhere-throwing transport yields the
normal value null after one call per endpoint; and whenever no poll
passes the completion test, the outcome is null rather than an error. -/
theorem onboardUser_no_exception_null_on_exhaustion
    (oracle : Nat → Nat → FetchOutcome) (token tierId : String)
    (projectId : Option String)
    (maxAttempts delayMs numEndpoints : Nat) :
    ((∀ e a data, oracle e a = FetchOutcome.success data →
        completionCheck data projectId = none) →
      (onboardUser oracle token tierId projectId maxAttempts delayMs
        numEndpoints).2.2 = none)
    ∧ (1 ≤ maxAttempts →
      (∀ e a, ∃ msg, oracle e a = FetchOutcome.throwErr msg) →
      (onboardUser oracle token tierId projectId maxAttempts delayMs
        numEndpoints).2 =
        ((List.range numEndpoints).map fun e => Event.call e 0, none)) := by
  constructor
  · intro hnc
    exact runEndpoints_no_completion oracle projectId maxAttempts delayMs
      hnc (List.range numEndpoints)
  · intro h1 hth
    exact runEndpoints_all_throw oracle projectId maxAttempts delayMs h1
      hth (List.range numEndpoints)

/-- C3 witness: an everywhere-throwing transport at concrete inputs, the
hypotheses evaluated and discharged there. -/
theorem onboardUser_no_exception_null_on_exhaustion_witness :
    ((∀ e a data, oracleThrow e a = FetchOutcome.success data →
        completionCheck data none = none))
    ∧ (onboardUser oracleThrow "tok" "FREE" none 3 100 2).2.2 = none :=
  ⟨fun _ _ _ h => FetchOutcome.noConfusion h,
   (onboardUser_no_exception_null_on_exhaustion oracleThrow "tok" "FREE"
     none 3 100 2).1 (fun _ _ _ h => FetchOutcome.noConfusion h)⟩

/-- C9: the trace of the last allowed attempt of an endpoint holds no
sleep event, whatever the transport does there; and a completing first
poll makes onboardUser return the managed id with a one-call trace, so no
sleep ever occurred. -/
theorem onboardUser_no_trailing_sleep (oracle : Nat → Nat → FetchOutcome)
    (token tierId : String) (projectId : Option String)
    (maxAttempts delayMs numEndpoints eIdx : Nat) (data : OnboardData) :
    (∀ ev ∈ (runAttempts oracle projectId maxAttempts delayMs eIdx
        (maxAttempts - 1)).1, ∀ ms, ev ≠ Event.sleep ms)
    ∧ (oracle 0 0 = FetchOutcome.success data → data.done = true →
      truthyOpt data.managedProjectId = true →
      1 ≤ numEndpoints → 1 ≤ maxAttempts →
      onboardUser oracle token tierId projectId maxAttempts delayMs
        numEndpoints =
        (buildRequestBody tierId projectId, [Event.call 0 0],
         data.managedProjectId)) := by
  constructor
  · cases maxAttempts with
    | zero =>
      rw [runAttempts_past oracle projectId 0 delayMs eIdx (0 - 1)
        (by omega)]
      simp
    | succ m =>
      simp only [Nat.add_sub_cancel]
      rw [runAttempts_unfold oracle projectId (m + 1) delayMs eIdx m
        (by omega)]
      have h2 : ¬ (m < (m + 1) - 1) := by omega
      cases hao : attemptOnce oracle eIdx m with
      | error msg => simp [hao]
      | ok o =>
        cases o with
        | none => simp [hao]
        | some d =>
          cases hcc : completionCheck d projectId with
          | some v => simp [hao, hcc]
          | none => simp [hao, hcc, h2]
  · intro hor hdone hm hn hA
    obtain ⟨s, hs, -⟩ := truthyOpt_iff.mp hm
    have hm2 : truthyOpt (some s) = true := by rw [← hs]; exact hm
    have hcc : completionCheck data projectId = some s := by
      simp [completionCheck, hdone, hs, hm2]
    have h0 : runAttempts oracle projectId maxAttempts delayMs 0 0 =
        ([Event.call 0 0], some s) :=
      runAttempts_completes oracle projectId maxAttempts delayMs 0 0 data
        s (by omega) hor hcc
    obtain ⟨k, hk⟩ : ∃ k, numEndpoints = k + 1 :=
      ⟨numEndpoints - 1, by omega⟩
    subst hk
    rw [onboardUser, List.range_succ_eq_map,
      runEndpoints_cons_some oracle projectId maxAttempts delayMs 0
        (List.map Nat.succ (List.range k)) [Event.call 0 0] s h0, hs]

/-- C9 witness: a first-attempt completion at concrete inputs, the
hypotheses evaluated and discharged there; the trace is a single call
with no sleep. -/
theorem onboardUser_no_trailing_sleep_witness :
    (oracleManagedX 0 0 = FetchOutcome.success ⟨true, some "X"⟩
      ∧ (⟨true, some "X"⟩ : OnboardData).done = true
      ∧ truthyOpt (some "X") = true
      ∧ (1 : Nat) ≤ 1 ∧ (1 : Nat) ≤ 10)
    ∧ onboardUser oracleManagedX "tok" "FREE" none 10 5000 1 =
        (buildRequestBody "FREE" none, [Event.call 0 0], some "X") :=
  ⟨⟨rfl, rfl, by decide, by decide, by decide⟩,
   (onboardUser_no_trailing_sleep oracleManagedX "tok" "FREE" none 10
     5000 1 0 ⟨true, some "X"⟩).2 rfl rfl (by decide) (by decide)
     (by decide)⟩

/-- A found binding is an entry of the store. -/
lemma storeLookup_mem (l : List (String × String)) (a : String)
    (v : String) (h : storeLookup l a = some v) : (a, v) ∈ l := by
  induction l with
  | nil => simp [storeLookup] at h
  | cons p rest ih =>
    obtain ⟨k, w⟩ := p
    by_cases hp : k = a
    · rw [storeLookup, if_pos hp] at h
      injection h with h2
      subst hp
      subst h2
      exact List.mem_cons_self _ _
    · rw [storeLookup, if_neg hp] at h
      exact List.mem_cons_of_mem _ (ih h)

/-- A non-empty account name is truthy. -/
lemma truthyOpt_some {a : String} (ha : a ≠ "") :
    truthyOpt (some a) = true := by
  simp [truthyOpt, ha]

/-- C4: per-key state machine of the session store: a key absent from the
store becomes present with the returned token on its first derive; a
present key returns its cached token with the state unchanged; a second
derive for the same key returns the identical string; clearing makes
every key absent again; and a derive after a clear behaves exactly as a
first-time lookup, generating and storing a fresh token. -/
theorem deriveSessionId_state_machine (env : Env) (s : SessionState)
    (a : String) (ha : a ≠ "") :
    (storeLookup s.runtimeSessionStore a = none →
      storeLookup (deriveSessionId env s (some a)).2.runtimeSessionStore
        a = some (deriveSessionId env s (some a)).1)
    ∧ (∀ v, storeLookup s.runtimeSessionStore a = some v →
      deriveSessionId env s (some a) = (v, s))
    ∧ ((deriveSessionId env (deriveSessionId env s (some a)).2
        (some a)).1 = (deriveSessionId env s (some a)).1)
    ∧ storeLookup (clearSessionStore s).runtimeSessionStore a = none
    ∧ deriveSessionId env (clearSessionStore s) (some a) =
      (generateBinaryStyleId env s.ctr,
       ⟨[(a, generateBinaryStyleId env s.ctr)], s.ctr + 1⟩) := by
  have ht : truthyOpt (some a) = true := truthyOpt_some ha
  refine ⟨?_, ?_, ?_, rfl, ?_⟩
  · intro hl
    simp only [deriveSessionId, ht, Bool.not_true, Bool.false_eq_true,
      if_false, Option.getD_some, hl]
    rw [storeLookup_append]
    simp [hl, storeLookup]
  · intro v hv
    simp [deriveSessionId, ht, hv]
  · cases hl : storeLookup s.runtimeSessionStore a with
    | some v => simp [deriveSessionId, ht, hl]
    | none =>
      simp only [deriveSessionId, ht, Bool.not_true, Bool.false_eq_true,
        if_false, Option.getD_some, hl]
      rw [storeLookup_append]
      simp [hl, storeLookup]
  · simp [deriveSessionId, clearSessionStore, ht, storeLookup]

/-- A deterministic environment stream used by concrete witnesses. -/
def envSeq : Env := ⟨fun k => "u" ++ Nat.repr k, fun k => k⟩

/-- C4 witness: two derives for the same concrete account return the
identical string, the hypothesis evaluated at the concrete input. -/
theorem deriveSessionId_state_machine_witness :
    ("a@x.com" ≠ "")
    ∧ (deriveSessionId envSeq
        (deriveSessionId envSeq initialSessionState (some "a@x.com")).2
        (some "a@x.com")).1 =
      (deriveSessionId envSeq initialSessionState (some "a@x.com")).1 :=
  ⟨by decide,
   (deriveSessionId_state_machine envSeq initialSessionState "a@x.com"
     (by decide)).2.2.1⟩

/-- C8: with a falsy account identifier the store returns the freshly
generated token of the current stream position, leaves the store map
untouched, ignores the store contents entirely, and two consecutive such
calls return different strings whenever the generator's consecutive
outputs differ. -/
theorem deriveSessionId_no_account_fresh (env : Env) (s : SessionState)
    (a : Option String) (ha : truthyOpt a = false) :
    (deriveSessionId env s a).1 = generateBinaryStyleId env s.ctr
    ∧ (deriveSessionId env s a).2 =
        ⟨s.runtimeSessionStore, s.ctr + 1⟩
    ∧ (∀ store2 : List (String × String),
        (deriveSessionId env ⟨store2, s.ctr⟩ a).1 =
          (deriveSessionId env s a).1)
    ∧ (generateBinaryStyleId env s.ctr ≠
        generateBinaryStyleId env (s.ctr + 1) →
      (deriveSessionId env (deriveSessionId env s a).2 a).1 ≠
        (deriveSessionId env s a).1) := by
  refine ⟨by simp [deriveSessionId, ha], by simp [deriveSessionId, ha],
    fun store2 => by simp [deriveSessionId, ha], ?_⟩
  intro hne
  simp only [deriveSessionId, ha, Bool.not_false, if_true]
  exact fun h => hne h.symm

/-- C8 witness: two concrete account-less derives return two different
strings, the hypotheses evaluated at the concrete input. -/
theorem deriveSessionId_no_account_fresh_witness :
    (truthyOpt none = false
      ∧ generateBinaryStyleId envSeq 0 ≠ generateBinaryStyleId envSeq 1)
    ∧ (deriveSessionId envSeq
        (deriveSessionId envSeq initialSessionState none).2 none).1 ≠
      (deriveSessionId envSeq initialSessionState none).1 :=
  ⟨⟨rfl, by decide⟩,
   (deriveSessionId_no_account_fresh envSeq initialSessionState none
     rfl).2.2.2 (by decide)⟩

/-- C10: a derive for one truthy account key touches at most that key's
entry: a cached key leaves the whole state unchanged, an absent key
appends exactly the one new binding, and the binding of every other key
is unchanged in every case. -/
theorem deriveSessionId_frame (env : Env) (s : SessionState) (a : String)
    (ha : a ≠ "") :
    (∀ v, storeLookup s.runtimeSessionStore a = some v →
      (deriveSessionId env s (some a)).2 = s)
    ∧ (storeLookup s.runtimeSessionStore a = none →
      (deriveSessionId env s (some a)).2.runtimeSessionStore =
        s.runtimeSessionStore ++ [(a, generateBinaryStyleId env s.ctr)])
    ∧ (∀ b, b ≠ a →
      storeLookup
        (deriveSessionId env s (some a)).2.runtimeSessionStore b =
        storeLookup s.runtimeSessionStore b) := by
  have ht : truthyOpt (some a) = true := truthyOpt_some ha
  refine ⟨?_, ?_, ?_⟩
  · intro v hv
    simp [deriveSessionId, ht, hv]
  · intro hl
    simp [deriveSessionId, ht, hl]
  · intro b hb
    cases hl : storeLookup s.runtimeSessionStore a with
    | some v => simp [deriveSessionId, ht, hl]
    | none =>
      simp only [deriveSessionId, ht, Bool.not_true, Bool.false_eq_true,
        if_false, Option.getD_some, hl]
      rw [storeLookup_append]
      cases hlb : storeLookup s.runtimeSessionStore b with
      | some v => rfl
      | none => simp [storeLookup, Ne.symm hb]

/-- C10 witness: a derive for one concrete account leaves another
account's (absent) binding absent, the hypotheses evaluated at the
concrete input. -/
theorem deriveSessionId_frame_witness :
    ("a@x.com" ≠ "" ∧ "b@x.com" ≠ "a@x.com")
    ∧ storeLookup
        (deriveSessionId envSeq initialSessionState
          (some "a@x.com")).2.runtimeSessionStore "b@x.com" =
      storeLookup initialSessionState.runtimeSessionStore "b@x.com" :=
  ⟨⟨by decide, by decide⟩,
   (deriveSessionId_frame envSeq initialSessionState "a@x.com"
     (by decide)).2.2 "b@x.com" (by decide)⟩

/-- Every token from the generator has the required shape, given that the
uuid stream is canonical. -/
lemma generateBinaryStyleId_shape (env : Env)
    (huuid : ∀ k, isCanonicalUUIDStr (env.uuid k) = true) (k : Nat) :
    tokenShape (generateBinaryStyleId env k) :=
  ⟨env.uuid k, env.now k, huuid k, rfl⟩

/-- Invariant: from a store whose every cached value has the token shape,
any sequence of operations only returns and stores shaped tokens. -/
lemma runSessionOps_tokenShape (env : Env)
    (huuid : ∀ k, isCanonicalUUIDStr (env.uuid k) = true) :
    ∀ (ops : List SessionOp) (s : SessionState),
      (∀ p ∈ s.runtimeSessionStore, tokenShape p.2) →
      (∀ v ∈ (runSessionOps env s ops).2, tokenShape v)
      ∧ (∀ p ∈ (runSessionOps env s ops).1.runtimeSessionStore,
          tokenShape p.2) := by
  intro ops
  induction ops with
  | nil =>
    intro s hs
    exact ⟨by simp [runSessionOps], by simpa [runSessionOps] using hs⟩
  | cons op rest ih =>
    intro s hs
    cases op with
    | clear =>
      have h := ih (clearSessionStore s) (by simp [clearSessionStore])
      simpa [runSessionOps] using h
    | derive a =>
      by_cases ht : truthyOpt a = true
      · cases hl : storeLookup s.runtimeSessionStore (a.getD "") with
        | some v =>
          have hv : tokenShape v :=
            hs (a.getD "", v) (storeLookup_mem _ _ _ hl)
          have h := ih s hs
          constructor
          · intro w hw
            simp only [runSessionOps, deriveSessionId, ht,
              Bool.not_true, Bool.false_eq_true, if_false, hl,
              List.mem_cons] at hw
            rcases hw with hw | hw
            · exact hw ▸ hv
            · exact h.1 w hw
          · intro p hp
            simp only [runSessionOps, deriveSessionId, ht,
              Bool.not_true, Bool.false_eq_true, if_false, hl] at hp
            exact h.2 p hp
        | none =>
          have hs2 : ∀ p ∈ (s.runtimeSessionStore ++
              [(a.getD "", generateBinaryStyleId env s.ctr)]),
              tokenShape p.2 := by
            intro p hp
            rcases List.mem_append.mp hp with hp | hp
            · exact hs p hp
            · simp only [List.mem_singleton] at hp
              subst hp
              exact generateBinaryStyleId_shape env huuid s.ctr
          have h := ih ⟨s.runtimeSessionStore ++
            [(a.getD "", generateBinaryStyleId env s.ctr)], s.ctr + 1⟩ hs2
          constructor
          · intro w hw
            simp only [runSessionOps, deriveSessionId, ht,
              Bool.not_true, Bool.false_eq_true, if_false, hl,
              List.mem_cons] at hw
            rcases hw with hw | hw
            · exact hw ▸ generateBinaryStyleId_shape env huuid s.ctr
            · exact h.1 w hw
          · intro p hp
            simp only [runSessionOps, deriveSessionId, ht,
              Bool.not_true, Bool.false_eq_true, if_false, hl] at hp
            exact h.2 p hp
      · have ht2 : truthyOpt a = false := by
          revert ht
          cases truthyOpt a <;> simp
        have h := ih ⟨s.runtimeSessionStore, s.ctr + 1⟩ hs
        constructor
        · intro w hw
          simp only [runSessionOps, deriveSessionId, ht2,
            Bool.not_false, if_true, List.mem_cons] at hw
          rcases hw with hw | hw
          · exact hw ▸ generateBinaryStyleId_shape env huuid s.ctr
          · exact h.1 w hw
        · intro p hp
          simp only [runSessionOps, deriveSessionId, ht2,
            Bool.not_false, if_true] at hp
          exact h.2 p hp

/-- C5: when the uuid stream is canonical (the textual form produced by
crypto.randomUUID), every token the store returns over any sequence of
operations from process start is exactly a canonical identifier string
immediately followed by a decimal timestamp, with no separator. -/
theorem sessionTokens_shape (env : Env)
    (huuid : ∀ k, isCanonicalUUIDStr (env.uuid k) = true)
    (ops : List SessionOp) (v : String)
    (hv : v ∈ (runSessionOps env initialSessionState ops).2) :
    tokenShape v :=
  (runSessionOps_tokenShape env huuid ops initialSessionState
    (by simp [initialSessionState])).1 v hv

/-- An environment with a concrete canonical uuid stream. -/
def envCanon : Env :=
  ⟨fun _ => "00000000-0000-4000-8000-000000000000", fun _ => 0⟩

/-- C5 witness: the token of a concrete derive has the shape, the
hypotheses evaluated and discharged at the concrete input. -/
theorem sessionTokens_shape_witness :
    ((∀ k, isCanonicalUUIDStr (envCanon.uuid k) = true)
      ∧ "00000000-0000-4000-8000-0000000000000" ∈
          (runSessionOps envCanon initialSessionState
            [SessionOp.derive (some "a")]).2)
    ∧ tokenShape "00000000-0000-4000-8000-0000000000000" :=
  ⟨⟨fun _ => rfl, by decide⟩,
   sessionTokens_shape envCanon (fun _ => rfl)
     [SessionOp.derive (some "a")] _ (by decide)⟩

end AntigravityProxy
